/-
Verification of the short-video production system (server-ai).

Shallow embedding in Lean 4 of the parts of the source the claims refer to:
  * the Segment Timing Model `parseScript`
    (src/unnamed/part_006, lines 79-103 and 332-356),
  * the scheduler with the in-flight guard and the error list
    (src/unnamed/part_000, `AutomationScheduler`),
  * the quota scheduler (src/unnamed/part_001, first draft,
    `executeAutomationCycle`, `resetDailyCounter`, `initializeFromDatabase`),
  * the run orchestration `createVideo` of ContentEngine
    (src/src/services/ContentEngine.ts) and of the VideoProducer
    (src/src/services/videoProducer.ts),
  * the media assembly invocations (ContentEngine.assembleVideo,
    videoProducer.assembleVideoWithFFmpeg, and the VideoProducer.assembleVideo
    variant of src/unnamed/part_004).

JS numbers that stay rational under the source's arithmetic are embedded as
`ℚ`; counters as `ℕ`; fallible steps are driven by explicit outcome
parameters standing for the results of the external collaborator calls.
-/
import Mathlib

namespace ServerAI

/-! ## Segment Timing Model (src/unnamed/part_006)

`parseScript(script)` does, in the source:
```
const sentences = script.split(/[.!?]+/).filter(s => s.trim().length > 0);
sentences.forEach(sentence => {
  const text = sentence.trim();
  if (text.length === 0) return;
  const wordsPerMinute = 150;
  const words = text.split(' ').length;
  const duration = Math.max(2, (words / wordsPerMinute) * 60);
  segments.push({ text, duration, startTime: currentTime });
  currentTime += duration;
});
```
The draft at lines 79-103 uses the floor `2`, the draft at lines 332-356
uses the floor `3`; everything else is identical, so the embedding is
parameterised by the floor and instantiated twice. -/

/-- The sentence terminators of the split regex `/[.!?]+/`. -/
def isTerminator (c : Char) : Bool := c = '.' || c = '!' || c = '?'

/-- The whitespace removed by JavaScript's `String.prototype.trim` (the
characters that can actually occur around the terminator-delimited units:
space, tab, newline, carriage return). -/
def isJsSpace (c : Char) : Bool := c = ' ' || c = '\t' || c = '\n' || c = '\r'

/-- `trim`: drop leading and trailing whitespace. -/
def jsTrim (l : List Char) : List Char :=
  ((l.dropWhile isJsSpace).reverse.dropWhile isJsSpace).reverse

/-- `String.prototype.split(/[.!?]+/)`: split on *maximal runs* of
terminator characters (consecutive terminators act as one separator, and an
empty chunk is produced at a leading or trailing separator, exactly as in
JavaScript). `cur` is the chunk being accumulated (reversed), `afterTerm`
records whether the previous character belonged to a terminator run. -/
def splitTermAux : List Char → List Char → Bool → List (List Char)
  | [], cur, _ => [cur.reverse]
  | c :: cs, cur, afterTerm =>
    if isTerminator c then
      if afterTerm then splitTermAux cs cur afterTerm
      else cur.reverse :: splitTermAux cs [] true
    else
      splitTermAux cs (c :: cur) false

/-- The filtered unit list `script.split(/[.!?]+/).filter(s => s.trim().length > 0)`. -/
def sentencesOf (script : List Char) : List (List Char) :=
  (splitTermAux script [] false).filter (fun u => (jsTrim u).length > 0)

/-- `text.split(' ')`: split on every single space character (JavaScript's
split on the one-character string `' '`, not on whitespace runs). -/
def splitSpaceAux : List Char → List Char → List (List Char)
  | [], cur => [cur.reverse]
  | c :: cs, cur =>
    if c = ' ' then cur.reverse :: splitSpaceAux cs []
    else splitSpaceAux cs (c :: cur)

/-- `text.split(' ').length`, the word count the source feeds into the
duration estimate. -/
def wordCount (text : List Char) : ℕ := (splitSpaceAux text []).length

/-- One timed segment: `{ text, duration, startTime }`. -/
structure ScriptSegment where
  text : List Char
  duration : ℚ
  startTime : ℚ
deriving DecidableEq, Repr

/-- The body of the `forEach` over the filtered units, with the running
`currentTime` accumulator. The `if text.length === 0 return` guard of the
source is kept although the filter has already discarded such units. -/
def parseScriptLoop (minSeconds : ℚ) : List (List Char) → ℚ → List ScriptSegment
  | [], _ => []
  | u :: us, currentTime =>
    let text := jsTrim u
    if text.length = 0 then
      parseScriptLoop minSeconds us currentTime
    else
      let words : ℚ := (wordCount text : ℚ)
      let duration := max minSeconds ((words / 150) * 60)
      ⟨text, duration, currentTime⟩ :: parseScriptLoop minSeconds us (currentTime + duration)

/-- `parseScript`, parameterised by the minimum-seconds floor. -/
def parseScriptWith (minSeconds : ℚ) (script : String) : List ScriptSegment :=
  parseScriptLoop minSeconds (sentencesOf script.data) 0

/-- `parseScript` of src/unnamed/part_006 lines 79-103 (`Math.max(2, ...)`). -/
def parseScript2 (script : String) : List ScriptSegment := parseScriptWith 2 script

/-- `parseScript` of src/unnamed/part_006 lines 332-356 (`Math.max(3, ...)`). -/
def parseScript3 (script : String) : List ScriptSegment := parseScriptWith 3 script

/-- The per-unit duration the spec describes: word count over the
150-words-per-minute rate, in seconds, clamped to the floor. -/
def unitDuration (minSeconds : ℚ) (u : List Char) : ℚ :=
  max minSeconds (((wordCount (jsTrim u) : ℚ)) / 150 * 60)

/-- The Timeline as the spec words it: one segment per unit, in order, each
with the clamped duration and the cumulative start offset. -/
def timelineFromUnits (minSeconds : ℚ) : List (List Char) → ℚ → List ScriptSegment
  | [], _ => []
  | u :: us, start =>
    ⟨jsTrim u, unitDuration minSeconds u, start⟩ ::
      timelineFromUnits minSeconds us (start + unitDuration minSeconds u)

lemma sentencesOf_trim_pos (script : List Char) :
    ∀ u ∈ sentencesOf script, 0 < (jsTrim u).length := by
  intro u hu
  have := List.mem_filter.mp hu
  simpa using this.2

lemma parseScriptLoop_eq_timelineFromUnits (m : ℚ) :
    ∀ (us : List (List Char)), (∀ u ∈ us, 0 < (jsTrim u).length) →
      ∀ t, parseScriptLoop m us t = timelineFromUnits m us t := by
  intro us
  induction us with
  | nil => intro _ t; rfl
  | cons u us ih =>
    intro h t
    have hu : 0 < (jsTrim u).length := h u (List.mem_cons_self u us)
    have hne : ¬ (jsTrim u).length = 0 := Nat.pos_iff_ne_zero.mp hu
    simp only [parseScriptLoop, timelineFromUnits, if_neg hne, unitDuration]
    exact congrArg (List.cons _) (ih (fun v hv => h v (List.mem_cons_of_mem u hv)) _)

lemma parseScriptWith_eq_timeline (m : ℚ) (s : String) :
    parseScriptWith m s = timelineFromUnits m (sentencesOf s.data) 0 :=
  parseScriptLoop_eq_timelineFromUnits m _ (sentencesOf_trim_pos s.data) 0

lemma timelineFromUnits_length (m : ℚ) :
    ∀ (us : List (List Char)) (t : ℚ), (timelineFromUnits m us t).length = us.length := by
  intro us
  induction us with
  | nil => intro t; rfl
  | cons u us ih => intro t; simp [timelineFromUnits, ih]

lemma timelineFromUnits_map_text (m : ℚ) :
    ∀ (us : List (List Char)) (t : ℚ),
      (timelineFromUnits m us t).map ScriptSegment.text = us.map jsTrim := by
  intro us
  induction us with
  | nil => intro t; rfl
  | cons u us ih => intro t; simp [timelineFromUnits, ih]

lemma timelineFromUnits_map_duration (m : ℚ) :
    ∀ (us : List (List Char)) (t : ℚ),
      (timelineFromUnits m us t).map ScriptSegment.duration = us.map (unitDuration m) := by
  intro us
  induction us with
  | nil => intro t; rfl
  | cons u us ih => intro t; simp [timelineFromUnits, ih]

lemma timelineFromUnits_map_startTime (m : ℚ) :
    ∀ (us : List (List Char)) (t : ℚ),
      (timelineFromUnits m us t).map ScriptSegment.startTime =
        ((us.map (unitDuration m)).scanl (· + ·) t).dropLast := by
  intro us
  induction us with
  | nil => intro t; rfl
  | cons u us ih =>
    intro t
    have hne : (us.map (unitDuration m)).scanl (· + ·) (t + unitDuration m u) ≠ [] := by
      have := List.length_scanl (f := (· + · : ℚ → ℚ → ℚ)) (t + unitDuration m u)
        (us.map (unitDuration m))
      intro hnil
      rw [hnil] at this
      simp at this
    simp only [timelineFromUnits, List.map_cons, List.scanl_cons, List.singleton_append]
    rw [List.dropLast_cons_of_ne_nil hne, ih]

lemma timelineFromUnits_head_startTime (m : ℚ) :
    ∀ (us : List (List Char)) (t : ℚ),
      ∀ a ∈ (timelineFromUnits m us t).head?, a.startTime = t := by
  intro us
  cases us with
  | nil => intro t a ha; simp [timelineFromUnits] at ha
  | cons u us =>
    intro t a ha
    simp only [timelineFromUnits, List.head?_cons, Option.mem_def, Option.some.injEq] at ha
    rw [← ha]

lemma timelineFromUnits_chain (m : ℚ) :
    ∀ (us : List (List Char)) (t : ℚ),
      List.Chain' (fun a b => b.startTime = a.startTime + a.duration)
        (timelineFromUnits m us t) := by
  intro us
  induction us with
  | nil => intro t; exact List.chain'_nil
  | cons u us ih =>
    intro t
    rw [timelineFromUnits, List.chain'_cons']
    refine ⟨?_, ih _⟩
    intro b hb
    rw [timelineFromUnits_head_startTime m us _ b hb]

lemma timelineFromUnits_last_total (m : ℚ) :
    ∀ (us : List (List Char)) (t : ℚ),
      ∀ z ∈ (timelineFromUnits m us t).getLast?,
        z.startTime + z.duration = t + (us.map (unitDuration m)).sum := by
  intro us
  induction us with
  | nil => intro t z hz; simp [timelineFromUnits] at hz
  | cons u us ih =>
    intro t z hz
    cases us with
    | nil =>
      simp only [timelineFromUnits, List.getLast?_singleton, Option.mem_def,
        Option.some.injEq] at hz
      rw [← hz]
      simp
    | cons v vs =>
      have hz' : z ∈ (timelineFromUnits m (v :: vs) (t + unitDuration m u)).getLast? := by
        rw [show timelineFromUnits m (u :: v :: vs) t =
            ⟨jsTrim u, unitDuration m u, t⟩ ::
              ⟨jsTrim v, unitDuration m v, t + unitDuration m u⟩ ::
                timelineFromUnits m vs (t + unitDuration m u + unitDuration m v) from rfl,
          List.getLast?_cons_cons] at hz
        exact hz
      have := ih (t + unitDuration m u) z hz'
      rw [this]
      simp only [List.map_cons, List.sum_cons]
      ring

lemma timelineFromUnits_last_total_getD (m : ℚ) (us : List (List Char)) :
    (((timelineFromUnits m us 0).getLast?.map
        (fun z => z.startTime + z.duration)).getD 0) =
      (us.map (unitDuration m)).sum := by
  cases h : (timelineFromUnits m us 0).getLast? with
  | none =>
    have hnil : timelineFromUnits m us 0 = [] := List.getLast?_eq_none_iff.mp h
    have : us = [] := by
      have hlen := timelineFromUnits_length m us 0
      rw [hnil] at hlen
      exact List.length_eq_zero.mp hlen.symm
    subst this
    simp
  | some z =>
    have hz : z ∈ (timelineFromUnits m us 0).getLast? := by rw [h]; rfl
    have := timelineFromUnits_last_total m us 0 z hz
    simp [Option.map_some, this]

/-- C2. For every narration text whose terminator-delimited split (discarding
whitespace-only units) yields N units, `parseScript` returns exactly N
segments in input order (the trimmed unit texts), each segment's duration is
max(minimum floor, wordCount / 150 * 60) seconds, the start offsets are the
cumulative sums of the preceding durations (segment 0 at offset 0, offsets
contiguous), and the final startTime plus final duration equals the sum of
all segment durations. -/
theorem segment_timing_model_correct (m : ℚ) (s : String) :
    (parseScriptWith m s).length = (sentencesOf s.data).length
    ∧ (parseScriptWith m s).map ScriptSegment.text = (sentencesOf s.data).map jsTrim
    ∧ (parseScriptWith m s).map ScriptSegment.duration =
        (sentencesOf s.data).map (unitDuration m)
    ∧ (parseScriptWith m s).map ScriptSegment.startTime =
        (((sentencesOf s.data).map (unitDuration m)).scanl (· + ·) 0).dropLast
    ∧ List.Chain' (fun a b => b.startTime = a.startTime + a.duration) (parseScriptWith m s)
    ∧ ((parseScriptWith m s).getLast?.map (fun z => z.startTime + z.duration)).getD 0 =
        ((parseScriptWith m s).map ScriptSegment.duration).sum := by
  rw [parseScriptWith_eq_timeline]
  refine ⟨timelineFromUnits_length m _ 0, timelineFromUnits_map_text m _ 0,
    timelineFromUnits_map_duration m _ 0, timelineFromUnits_map_startTime m _ 0,
    timelineFromUnits_chain m _ 0, ?_⟩
  rw [timelineFromUnits_last_total_getD m _, timelineFromUnits_map_duration m _ 0]

/-- C9, counterexample. On empty narration input the source's `parseScript`
does not fail at all: it is a total function that returns the empty segment
list (the split yields one empty chunk, the trim filter discards it, the
loop over zero units produces zero segments). No `EmptyScriptError` — and no
error path whatsoever — exists in `parseScript`; both drafts return `[]`
normally, refuting the claim that empty narration fails with
`EmptyScriptError`. -/
theorem parseScript_empty_returns_nil :
    parseScript2 "" = [] ∧ parseScript3 "" = [] ∧ parseScript2 "  . !  ? " = [] := by
  refine ⟨by decide, by decide, by decide⟩

/-- C9, amended. For empty narration input (no non-empty sentence-like units
after splitting) `parseScript` returns the empty segment list without
raising any error; for narration consisting of a single unit it returns a
Timeline of exactly one segment starting at offset 0. -/
theorem parseScript_empty_and_single_unit (m : ℚ) (s : String)
    (h : (sentencesOf s.data).length = 1) :
    parseScriptWith m "" = []
    ∧ (parseScriptWith m s).length = 1
    ∧ (parseScriptWith m s).map ScriptSegment.startTime = [0] := by
  refine ⟨rfl, ?_, ?_⟩
  · rw [parseScriptWith_eq_timeline, timelineFromUnits_length, h]
  · rw [parseScriptWith_eq_timeline, timelineFromUnits_map_startTime]
    obtain ⟨u, hu⟩ := List.length_eq_one.mp h
    rw [hu]
    simp

/-- C9, witness: the single-unit narration "Hello world" has exactly one
sentence-like unit, and the model returns one segment starting at offset 0. -/
theorem parseScript_empty_and_single_unit_witness :
    (sentencesOf "Hello world".data).length = 1
    ∧ ((parseScriptWith 2 "Hello world").length = 1
        ∧ (parseScriptWith 2 "Hello world").map ScriptSegment.startTime = [0]) :=
  ⟨by decide, (parseScript_empty_and_single_unit 2 "Hello world" (by decide)).2⟩

/-! ## AutomationScheduler of src/unnamed/part_000

`ScheduleStatus` is `{ isRunning, lastRun, nextRun, totalVideosProd,
errors }`. `generateDailyContent` (lines 148-211) guards on
`status.isRunning`, runs the hunting / generation / production steps, pushes
an error message on any failure, increments `totalVideosProd` on success,
and resets `isRunning` in the `finally`. The outcome of the external steps
is passed in explicitly; timestamps are `ℕ`. -/

/-- `ScheduleStatus` of src/unnamed/part_000 lines 8-14. -/
structure ScheduleStatus where
  isRunning : Bool
  lastRun : Option ℕ
  nextRun : Option ℕ
  totalVideosProd : ℕ
  errors : List String
deriving DecidableEq, Repr

/-- The status the constructor builds (src/unnamed/part_000 lines 31-37). -/
def initialStatus : ScheduleStatus :=
  { isRunning := false, lastRun := none, nextRun := none,
    totalVideosProd := 0, errors := [] }

/-- How one pass of `generateDailyContent` turns out: either a step throws
(with the thrown message) or production succeeds with a video id. -/
inductive GenOutcome where
  | noTrending
  | contentFailed
  | videoFailed
  | ok (videoId : String)
deriving DecidableEq, Repr

/-- What `generateDailyContent` did: skipped because a run was in flight,
failed (error recorded), or succeeded. -/
inductive GenResult where
  | skipped
  | failed
  | succeeded
deriving DecidableEq, Repr

/-- The error message pushed by the catch block of `generateDailyContent`
(line 207): `Content generation error: ${error.message}`. -/
def genErrorMessage : GenOutcome → String
  | .noTrending => "Content generation error: No trending topics found"
  | .contentFailed => "Content generation error: Content generation failed"
  | .videoFailed => "Content generation error: Video production failed"
  | .ok _ => ""

/-- `generateDailyContent` (src/unnamed/part_000 lines 148-211). If
`status.isRunning` is set it logs and returns at once, touching nothing.
Otherwise it sets `isRunning` and `lastRun`, runs the steps, increments
`totalVideosProd` on success or pushes the error message on failure, and
clears `isRunning` in the `finally`. -/
def generateDailyContent (now : ℕ) (out : GenOutcome) (s : ScheduleStatus) :
    ScheduleStatus × GenResult :=
  if s.isRunning then
    (s, .skipped)
  else
    let s1 := { s with isRunning := true, lastRun := some now }
    match out with
    | .ok _ =>
      ({ s1 with totalVideosProd := s1.totalVideosProd + 1, isRunning := false }, .succeeded)
    | o =>
      ({ s1 with errors := s1.errors ++ [genErrorMessage o], isRunning := false }, .failed)

/-- The manual-trigger result `{ success, videoId?, error? }`
(src/unnamed/part_000 lines 16-20). -/
structure ContentResult where
  success : Bool
  videoId : Option String
  error : Option String
deriving DecidableEq, Repr

/-- `triggerContentGeneration` (src/unnamed/part_000 lines 359-366): awaits
`generateDailyContent` and returns `{ success: true }`; the catch branch is
unreachable because `generateDailyContent` swallows every step error in its
own catch. -/
def triggerContentGeneration (now : ℕ) (out : GenOutcome) (s : ScheduleStatus) :
    ScheduleStatus × ContentResult :=
  ((generateDailyContent now out s).1, { success := true, videoId := none, error := none })

/-- `performCleanup` (src/unnamed/part_000 lines 272-306): runs the producer
cleanup, trims `errors` to its last 10 entries when it holds more than 10
(`errors.slice(-10)`), then deletes old database rows; if the producer
cleanup throws, the catch pushes a cleanup error before any trimming
happened, and if the database step throws, the catch pushes a cleanup error
after the trimming. -/
def performCleanup (producerOk dbOk : Bool) (s : ScheduleStatus) : ScheduleStatus :=
  if !producerOk then
    { s with errors := s.errors ++ ["Cleanup error: producer cleanup failed"] }
  else
    let s1 := if s.errors.length > 10
      then { s with errors := s.errors.drop (s.errors.length - 10) }
      else s
    if !dbOk then
      { s1 with errors := s1.errors ++ ["Cleanup error: database cleanup failed"] }
    else s1

/-- C1. Whenever a run is already executing (`status.isRunning` is set), any
further trigger through `generateDailyContent` — scheduled fire or the
manual `triggerContentGeneration`, which enters through the same code path —
is a no-op: the status (and hence the in-flight run's state and workspace)
is left completely unchanged, and no second run is started (the call reports
`skipped` / an immediate success without reaching any production step). -/
theorem at_most_one_run_in_flight (now : ℕ) (out : GenOutcome) (s : ScheduleStatus)
    (h : s.isRunning = true) :
    generateDailyContent now out s = (s, .skipped)
    ∧ triggerContentGeneration now out s =
        (s, { success := true, videoId := none, error := none }) := by
  constructor
  · simp [generateDailyContent, h]
  · simp [triggerContentGeneration, generateDailyContent, h]

/-- C1, witness: with a run in flight (and a failing outcome pending), both
entry points leave the concrete status untouched. -/
theorem at_most_one_run_in_flight_witness :
    ({ initialStatus with isRunning := true } : ScheduleStatus).isRunning = true
    ∧ (generateDailyContent 5 .noTrending { initialStatus with isRunning := true } =
        ({ initialStatus with isRunning := true }, .skipped)
      ∧ triggerContentGeneration 5 .noTrending { initialStatus with isRunning := true } =
          ({ initialStatus with isRunning := true },
            { success := true, videoId := none, error := none })) :=
  ⟨rfl, at_most_one_run_in_flight 5 .noTrending _ rfl⟩

/-- C8, counterexample. The recent-errors collection is not a capacity-10
ring buffer maintained at every operation: error pushes are unbounded, and
only `performCleanup` trims. Eleven consecutive failing generation passes
from the freshly constructed status leave 11 entries in `errors`, violating
the claimed at-most-10 bound. -/
theorem errors_not_bounded_at_every_operation :
    ((fun s => (generateDailyContent 0 .noTrending s).1)^[11] initialStatus).errors.length
      = 11 := by
  decide

/-- C8, amended. The errors list is trimmed to its 10 most recent entries
only by the periodic cleanup task, not on push: after a `performCleanup`
pass whose own steps succeed, the list holds at most 10 entries and they are
a suffix (the most recently recorded ones) of the previous list; between
cleanups the list can grow without bound. -/
theorem errors_trimmed_only_by_cleanup (s : ScheduleStatus) :
    (performCleanup true true s).errors.length ≤ 10
    ∧ (performCleanup true true s).errors <:+ s.errors := by
  unfold performCleanup
  simp only [Bool.not_true, Bool.false_eq_true, if_false]
  by_cases h : s.errors.length > 10
  · constructor
    · simp only [if_pos h, List.length_drop]
      omega
    · simp only [if_pos h]
      exact List.drop_suffix _ _
  · constructor
    · simp only [if_neg h]
      omega
    · simp only [if_neg h]
      exact List.suffix_refl _

/-! ## Quota scheduler of src/unnamed/part_001 (first draft)

This `AutomationScheduler` keeps `videosCreatedToday` and `lastResetDate`
next to a `ScheduleStatus` with success/failure counters, and its
`executeAutomationCycle` (lines 160-258) starts with the quota guard
`if (this.videosCreatedToday >= this.config.maxVideosPerDay) return;`.
Calendar days are embedded as `ℕ` day identifiers (the result of
`toDateString`), timestamps as `ℕ`. -/

/-- The fields of `ScheduleConfig` the cycle reads (lines 8-14). -/
structure AutoConfig where
  maxVideosPerDay : ℕ
deriving DecidableEq, Repr

/-- The fields of the part_001 `ScheduleStatus` the cycle writes
(lines 16-24). -/
structure AutoStatus where
  lastRun : Option ℕ
  nextRun : Option ℕ
  totalVideosProduced : ℕ
  successfulRuns : ℕ
  failedRuns : ℕ
deriving DecidableEq, Repr

/-- The scheduler's mutable state (lines 26-34). -/
structure AutoScheduler where
  config : AutoConfig
  status : AutoStatus
  videosCreatedToday : ℕ
  lastResetDate : ℕ
deriving DecidableEq, Repr

/-- How one automation cycle's external steps turn out: no trending videos
found (early return), some step of content generation / production / upload
throwing (caught), or everything succeeding. `logVideoCreation` cannot fail
the cycle — it catches its own errors (lines 260-283). -/
inductive CycleOutcome where
  | noTrending
  | stepFailed
  | ok
deriving DecidableEq, Repr

/-- What the cycle did. -/
inductive CycleResult where
  | quotaSkipped
  | noTrendingSkip
  | failed
  | succeeded
deriving DecidableEq, Repr

/-- `getNextRunTime` (lines 302-315): simplified four-hours-ahead stamp. -/
def getNextRunTime (now : ℕ) : ℕ := now + 4 * 60 * 60 * 1000

/-- `executeAutomationCycle` (src/unnamed/part_001 lines 160-258). The quota
guard returns before anything is touched; otherwise `lastRun` is set, the
steps run, the success path increments `videosCreatedToday`,
`totalVideosProduced` and `successfulRuns`, the catch increments
`failedRuns`, and the `finally` sets `nextRun`. -/
def executeAutomationCycle (now : ℕ) (out : CycleOutcome) (s : AutoScheduler) :
    AutoScheduler × CycleResult :=
  if s.config.maxVideosPerDay ≤ s.videosCreatedToday then
    (s, .quotaSkipped)
  else
    let s1 := { s with status := { s.status with lastRun := some now } }
    match out with
    | .noTrending =>
      ({ s1 with status := { s1.status with nextRun := some (getNextRunTime now) } },
        .noTrendingSkip)
    | .stepFailed =>
      ({ s1 with status := { s1.status with
          failedRuns := s1.status.failedRuns + 1,
          nextRun := some (getNextRunTime now) } }, .failed)
    | .ok =>
      ({ s1 with
          videosCreatedToday := s1.videosCreatedToday + 1,
          status := { s1.status with
            totalVideosProduced := s1.status.totalVideosProduced + 1,
            successfulRuns := s1.status.successfulRuns + 1,
            nextRun := some (getNextRunTime now) } }, .succeeded)

/-- `resetDailyCounter` (src/unnamed/part_001 lines 449-454). -/
def resetDailyCounter (today : ℕ) (s : AutoScheduler) : AutoScheduler :=
  { s with videosCreatedToday := 0, lastResetDate := today }

/-- The day-boundary reset of `initializeFromDatabase`
(src/unnamed/part_001 lines 86-92): if the stored reset date is not today,
zero the daily counter and stamp today. -/
def initDayReset (today : ℕ) (s : AutoScheduler) : AutoScheduler :=
  if s.lastResetDate ≠ today then
    { s with videosCreatedToday := 0, lastResetDate := today }
  else s

/-- C6. With a configured quota of `maxVideosPerDay = Q`, once the daily
counter has reached Q, a scheduled fire is skipped without starting any step
and without touching the state, and so is every further fire in the same day
(iterating fires leaves the state fixed); after the calendar-day boundary
resets the counter to zero (via the `initializeFromDatabase` day check or
`resetDailyCounter`), the next fire proceeds (it is not a quota skip). -/
theorem daily_quota_enforced (now today : ℕ) (out out2 : CycleOutcome) (s : AutoScheduler)
    (h : s.config.maxVideosPerDay ≤ s.videosCreatedToday)
    (hQ : 0 < s.config.maxVideosPerDay) (hday : s.lastResetDate ≠ today) :
    executeAutomationCycle now out s = (s, .quotaSkipped)
    ∧ (∀ fires : List (ℕ × CycleOutcome),
        fires.foldl (fun st f => (executeAutomationCycle f.1 f.2 st).1) s = s)
    ∧ (initDayReset today s).videosCreatedToday = 0
    ∧ (resetDailyCounter today s).videosCreatedToday = 0
    ∧ (executeAutomationCycle now out2 (initDayReset today s)).2 ≠ .quotaSkipped := by
  have hskip : executeAutomationCycle now out s = (s, .quotaSkipped) := by
    simp [executeAutomationCycle, h]
  refine ⟨hskip, ?_, ?_, ?_, ?_⟩
  · intro fires
    induction fires with
    | nil => rfl
    | cons f fs ih =>
      have : executeAutomationCycle f.1 f.2 s = (s, .quotaSkipped) := by
        simp [executeAutomationCycle, h]
      simp only [List.foldl_cons, this]
      exact ih
  · simp [initDayReset, hday]
  · simp [resetDailyCounter]
  · have hzero : (initDayReset today s).videosCreatedToday = 0 := by
      simp [initDayReset, hday]
    have hcfg : (initDayReset today s).config = s.config := by
      simp [initDayReset, hday]
    have hguard : ¬ (initDayReset today s).config.maxVideosPerDay ≤
        (initDayReset today s).videosCreatedToday := by
      rw [hzero, hcfg]
      omega
    cases out2 <;> simp [executeAutomationCycle, hguard]

/-- C6, witness: with quota 2 already used up on day 0, the fire is skipped,
three more fires leave the state fixed, and after the day-1 reset the next
fire proceeds. -/
theorem daily_quota_enforced_witness :
    (executeAutomationCycle 7 .ok
        ⟨⟨2⟩, ⟨none, none, 2, 2, 0⟩, 2, 0⟩ = (⟨⟨2⟩, ⟨none, none, 2, 2, 0⟩, 2, 0⟩, .quotaSkipped))
    ∧ ([(8, CycleOutcome.ok), (9, CycleOutcome.stepFailed), (10, CycleOutcome.ok)].foldl
        (fun st f => (executeAutomationCycle f.1 f.2 st).1)
        ⟨⟨2⟩, ⟨none, none, 2, 2, 0⟩, 2, 0⟩ = ⟨⟨2⟩, ⟨none, none, 2, 2, 0⟩, 2, 0⟩)
    ∧ (initDayReset 1 ⟨⟨2⟩, ⟨none, none, 2, 2, 0⟩, 2, 0⟩).videosCreatedToday = 0
    ∧ (resetDailyCounter 1 ⟨⟨2⟩, ⟨none, none, 2, 2, 0⟩, 2, 0⟩).videosCreatedToday = 0
    ∧ (executeAutomationCycle 7 .ok
        (initDayReset 1 ⟨⟨2⟩, ⟨none, none, 2, 2, 0⟩, 2, 0⟩)).2 ≠ .quotaSkipped := by
  have h := daily_quota_enforced 7 1 .ok .ok ⟨⟨2⟩, ⟨none, none, 2, 2, 0⟩, 2, 0⟩
    (by decide) (by decide) (by decide)
  exact ⟨h.1, h.2.1 _, h.2.2.1, h.2.2.2.1, h.2.2.2.2⟩

/-- C10. The daily quota counter is success-count-based: an automation cycle
increments `videosCreatedToday` exactly when it was not quota-skipped and
production, upload and logging all completed (`logVideoCreation` cannot fail
the cycle: it catches its own errors); a cycle that fails at any step — or
finds no trending videos — leaves `videosCreatedToday` unchanged, so failed
runs do not count against the daily quota. -/
theorem quota_counts_only_successes (now : ℕ) (out : CycleOutcome) (s : AutoScheduler) :
    (executeAutomationCycle now out s).1.videosCreatedToday =
      (if s.videosCreatedToday < s.config.maxVideosPerDay ∧ out = .ok
        then s.videosCreatedToday + 1 else s.videosCreatedToday)
    ∧ ((executeAutomationCycle now out s).2 = .succeeded ↔
        (s.videosCreatedToday < s.config.maxVideosPerDay ∧ out = .ok)) := by
  by_cases h : s.config.maxVideosPerDay ≤ s.videosCreatedToday
  · have hlt : ¬ s.videosCreatedToday < s.config.maxVideosPerDay := by omega
    cases out <;> simp [executeAutomationCycle, h, hlt]
  · have hlt : s.videosCreatedToday < s.config.maxVideosPerDay := by omega
    cases out <;> simp [executeAutomationCycle, h, hlt]

/-! ## createVideo of ContentEngine and VideoProducer

`YouTubeContentEngine.createVideo` (src/src/services/ContentEngine.ts lines
208-239) creates a per-run temp directory, generates the voiceover (null on
failure → throw), loops over the script's segments calling `generateVisual`
— a failed segment is *skipped with a warning*, a successful one pushes its
path — throws when `visualPaths` stayed empty, generates the thumbnail
(its own catch returns a default path, so it cannot throw), assembles, and
returns `{ success: true, ... }`; its catch (lines 235-238) only logs and
returns `{ success: false, error }` — it never removes the temp directory.

The VideoProducer variant (src/src/services/videoProducer.ts lines 22-78)
has the same step structure, but its catch calls
`await this.cleanupTempDir(tempDir)` before returning the failure.

Step outcomes are passed in: `voiceOk` for the voiceover, one `Bool` per
segment for the visual calls, `assembleOk` for the ffmpeg promise. -/

/-- Observable outcome of one `createVideo` run: the returned result plus
what is left on disk (did the run reach assembly, with how many visual
assets; was the per-run temp directory removed; was a finished output file
handed back). -/
structure RunOutcome where
  success : Bool
  error : Option String
  reachedAssembly : Bool
  assemblyAssetCount : ℕ
  tempDirRemoved : Bool
  returnedFile : Bool
deriving DecidableEq, Repr

/-- `YouTubeContentEngine.createVideo` (src/src/services/ContentEngine.ts
lines 208-239). `visuals` holds one entry per `script.segments` element:
`true` iff `generateVisual` returned a path for it. -/
def contentEngineCreateVideo (voiceOk : Bool) (visuals : List Bool)
    (assembleOk : Bool) : RunOutcome :=
  if !voiceOk then
    { success := false, error := some "Failed to generate voiceover.",
      reachedAssembly := false, assemblyAssetCount := 0,
      tempDirRemoved := false, returnedFile := false }
  else
    let visualPaths := visuals.count true
    if visualPaths = 0 then
      { success := false, error := some "No visuals could be generated for the video.",
        reachedAssembly := false, assemblyAssetCount := 0,
        tempDirRemoved := false, returnedFile := false }
    else if !assembleOk then
      { success := false, error := some "ffmpeg error during video assembly",
        reachedAssembly := true, assemblyAssetCount := visualPaths,
        tempDirRemoved := false, returnedFile := false }
    else
      { success := true, error := none,
        reachedAssembly := true, assemblyAssetCount := visualPaths,
        tempDirRemoved := false, returnedFile := true }

/-- `createVideo` of src/src/services/videoProducer.ts lines 22-78: same
step structure as the ContentEngine variant, but the catch block runs
`cleanupTempDir(tempDir)` (recursive `fs.remove`) before returning the
failure result. -/
def videoProducerCreateVideo (voiceOk : Bool) (visuals : List Bool)
    (assembleOk : Bool) : RunOutcome :=
  if !voiceOk then
    { success := false, error := some "Voiceover generation failed.",
      reachedAssembly := false, assemblyAssetCount := 0,
      tempDirRemoved := true, returnedFile := false }
  else
    let visualPaths := visuals.count true
    if visualPaths = 0 then
      { success := false, error := some "No visuals generated.",
        reachedAssembly := false, assemblyAssetCount := 0,
        tempDirRemoved := true, returnedFile := false }
    else if !assembleOk then
      { success := false, error := some "ffmpeg error during video assembly",
        reachedAssembly := true, assemblyAssetCount := visualPaths,
        tempDirRemoved := true, returnedFile := false }
    else
      { success := true, error := none,
        reachedAssembly := true, assemblyAssetCount := visualPaths,
        tempDirRemoved := false, returnedFile := true }

/-- C3, counterexample. With N = 2 segments of which K = 1 visual call
fails, `createVideo` does reach assembly but hands it only the 1 successful
visual asset — the failed segment is skipped with a warning, not replaced by
a locally rendered fallback — so the run does not proceed with N = 2 visual
assets as claimed. -/
theorem partial_visual_failure_not_padded_with_fallbacks :
    (contentEngineCreateVideo true [true, false] true).reachedAssembly = true
    ∧ (contentEngineCreateVideo true [true, false] true).assemblyAssetCount = 1
    ∧ ¬ (contentEngineCreateVideo true [true, false] true).assemblyAssetCount = 2 := by
  refine ⟨by decide, by decide, by decide⟩

/-- C3, amended. If K of the N per-segment visual synthesis calls fail with
0 < K < N, the run still proceeds to assembly, but with the N − K
successfully generated visual assets only (failed segments are skipped with
a warning, not replaced by fallbacks); if all N fail, the run aborts with
the no-visual-assets error instead of producing an output. -/
theorem partial_visual_failure_policy (voiceOk : Bool) (visuals : List Bool)
    (assembleOk : Bool) (hv : voiceOk = true) :
    (0 < visuals.count true →
      (contentEngineCreateVideo voiceOk visuals assembleOk).reachedAssembly = true
      ∧ (contentEngineCreateVideo voiceOk visuals assembleOk).assemblyAssetCount =
          visuals.length - visuals.count false)
    ∧ (visuals.count true = 0 →
      (contentEngineCreateVideo voiceOk visuals assembleOk).success = false
      ∧ (contentEngineCreateVideo voiceOk visuals assembleOk).error =
          some "No visuals could be generated for the video."
      ∧ (contentEngineCreateVideo voiceOk visuals assembleOk).returnedFile = false) := by
  subst hv
  have hcount : visuals.count true = visuals.length - visuals.count false := by
    have := List.count_true_add_count_false visuals
    omega
  constructor
  · intro hpos
    have hne : ¬ visuals.count true = 0 := by omega
    cases assembleOk <;>
      simp [contentEngineCreateVideo, hne, ← hcount]
  · intro hzero
    simp [contentEngineCreateVideo, hzero]

/-- C3, witness: voiceover ok; with 1 of 2 visuals failing the run reaches
assembly with 1 asset, and with 2 of 2 failing it aborts with the
no-visual-assets error. -/
theorem partial_visual_failure_policy_witness :
    (0 < ([true, false] : List Bool).count true
      ∧ ((contentEngineCreateVideo true [true, false] true).reachedAssembly = true
        ∧ (contentEngineCreateVideo true [true, false] true).assemblyAssetCount =
            ([true, false] : List Bool).length - ([true, false] : List Bool).count false))
    ∧ (([false, false] : List Bool).count true = 0
      ∧ ((contentEngineCreateVideo true [false, false] true).success = false
        ∧ (contentEngineCreateVideo true [false, false] true).error =
            some "No visuals could be generated for the video."
        ∧ (contentEngineCreateVideo true [false, false] true).returnedFile = false)) :=
  ⟨⟨by decide, (partial_visual_failure_policy true [true, false] true rfl).1 (by decide)⟩,
   ⟨by decide, (partial_visual_failure_policy true [false, false] true rfl).2 (by decide)⟩⟩

/-- C5, counterexample. Not every failing exit path removes the run's
temporary workspace: `YouTubeContentEngine.createVideo`'s catch block
(ContentEngine.ts lines 235-238) only logs and returns the failure — on a
voiceover failure the run fails with the per-run temp directory still in
place. -/
theorem failed_run_can_leave_workspace :
    (contentEngineCreateVideo false [] true).success = false
    ∧ (contentEngineCreateVideo false [] true).tempDirRemoved = false := by
  refine ⟨by decide, by decide⟩

/-- C5, amended. On every failing exit path of the VideoProducer variant of
`createVideo` (videoProducer.ts lines 72-77) the per-run temporary directory
is recursively removed and no output file is handed back; the ContentEngine
variant's failing paths return the error without removing the temp
directory (though they also hand back no output file). -/
theorem failed_run_cleanup_policy (voiceOk : Bool) (visuals : List Bool)
    (assembleOk : Bool)
    (h : (videoProducerCreateVideo voiceOk visuals assembleOk).success = false) :
    (videoProducerCreateVideo voiceOk visuals assembleOk).tempDirRemoved = true
    ∧ (videoProducerCreateVideo voiceOk visuals assembleOk).returnedFile = false
    ∧ ((contentEngineCreateVideo voiceOk visuals assembleOk).success = false →
        (contentEngineCreateVideo voiceOk visuals assembleOk).tempDirRemoved = false
        ∧ (contentEngineCreateVideo voiceOk visuals assembleOk).returnedFile = false) := by
  cases voiceOk <;> cases assembleOk <;>
    by_cases hz : visuals.count true = 0 <;>
      simp_all [videoProducerCreateVideo, contentEngineCreateVideo]

/-- C5, witness: an assembly failure with one good visual is a failing run;
the VideoProducer removes its temp directory and returns no file, while the
ContentEngine variant leaves its temp directory in place. -/
theorem failed_run_cleanup_policy_witness :
    (videoProducerCreateVideo true [true] false).success = false
    ∧ (videoProducerCreateVideo true [true] false).tempDirRemoved = true
    ∧ (videoProducerCreateVideo true [true] false).returnedFile = false
    ∧ (contentEngineCreateVideo true [true] false).tempDirRemoved = false
    ∧ (contentEngineCreateVideo true [true] false).returnedFile = false := by
  have h := failed_run_cleanup_policy true [true] false (by decide)
  exact ⟨by decide, h.1, h.2.1, (h.2.2 (by decide)).1, (h.2.2 (by decide)).2⟩

/-! ## Media assembly invocations

The assembly functions hand ffmpeg a complex filter and a list of output
options. The option/filter strings of the source are embedded as structured
tokens, one constructor per distinct option shape the source emits, so that
membership and geometry are provable; the doc comment of each definition
quotes the exact strings of its source lines. Four assembly call sites
exist: `YouTubeContentEngine.assembleVideo` (ContentEngine.ts lines
338-380), `assembleVideoWithFFmpeg` (videoProducer.ts lines 175-226, and
the identical drafts in youtubeService.ts and src/unnamed/part_007), and the
`VideoProducer.assembleVideo` variant of src/unnamed/part_004 lines 373-434
(used by the part_001 quota scheduler through `createVideo`). -/

/-- One `-...` output option of an assembly invocation. -/
inductive FfmpegOutOption where
  | mapStream (pad : String)
  | mapAudioOfInput (idx : ℕ)
  | codecVideo (name : String)
  | codecAudio (name : String)
  | videoBitrate (value : String)
  | audioBitrate (value : String)
  | presetName (name : String)
  | crf (value : ℕ)
  | frameRate (fps : ℕ)
  | pixFmt (name : String)
  | movflags (value : String)
  | shortest
deriving DecidableEq, Repr

/-- One stage of an assembly complex filter. -/
inductive VideoFilter where
  | concatStreams (n : ℕ)
  | scaleFitPad (w h : ℕ)
  | scaleExact (w h : ℕ)
deriving DecidableEq, Repr

/-- Output options of `YouTubeContentEngine.assembleVideo`
(src/src/services/ContentEngine.ts lines 355-365), in source order:
`-map [video]`, `-map ${n}:a`, `-c:v libx264`, `-preset medium`, `-crf 23`,
`-c:a aac`, `-b:a 128k`, `-r 30`, `-shortest`. -/
def contentEngineOutputOptions (n : ℕ) : List FfmpegOutOption :=
  [.mapStream "[video]", .mapAudioOfInput n, .codecVideo "libx264",
   .presetName "medium", .crf 23, .codecAudio "aac", .audioBitrate "128k",
   .frameRate 30, .shortest]

/-- Complex filter of `YouTubeContentEngine.assembleVideo`
(src/src/services/ContentEngine.ts lines 351-354):
`concat=n=${n}:v=1:a=0[slideshow]` then
`[slideshow]scale=1080:1920:force_original_aspect_ratio=decrease,pad=1080:1920:(ow-iw)/2:(oh-ih)/2[video]`. -/
def contentEngineComplexFilter (n : ℕ) : List VideoFilter :=
  [.concatStreams n, .scaleFitPad 1080 1920]

/-- Output options of `assembleVideoWithFFmpeg`
(src/src/services/videoProducer.ts lines 200-210): the same list as the
ContentEngine invocation, `-shortest` included. -/
def videoProducerOutputOptions (n : ℕ) : List FfmpegOutOption :=
  [.mapStream "[video]", .mapAudioOfInput n, .codecVideo "libx264",
   .presetName "medium", .crf 23, .codecAudio "aac", .audioBitrate "128k",
   .frameRate 30, .shortest]

/-- Complex filter of `assembleVideoWithFFmpeg`
(src/src/services/videoProducer.ts lines 196-199): identical scale-and-pad
chain to the ContentEngine invocation. -/
def videoProducerComplexFilter (n : ℕ) : List VideoFilter :=
  [.concatStreams n, .scaleFitPad 1080 1920]

/-- The `resolutions` table of `VideoProducer.assembleVideo`
(src/unnamed/part_004 lines 390-396). -/
inductive Resolution where
  | r720p
  | r1080p
  | r4K
deriving DecidableEq, Repr

/-- Frame size per resolution (src/unnamed/part_004 lines 390-396). -/
def resolutionDims : Resolution → ℕ × ℕ
  | .r720p => (1280, 720)
  | .r1080p => (1920, 1080)
  | .r4K => (3840, 2160)

/-- Complex filter of `VideoProducer.assembleVideo`
(src/unnamed/part_004 lines 399-404): `concat=n=${n}:v=1:a=0[slideshow]`
then the plain `[slideshow]scale=${width}:${height}[video]` — no
`force_original_aspect_ratio`, no `pad`. -/
def part004AssembleComplexFilter (n : ℕ) (r : Resolution) : List VideoFilter :=
  [.concatStreams n, .scaleExact (resolutionDims r).1 (resolutionDims r).2]

/-- Output options of `VideoProducer.assembleVideo`
(src/unnamed/part_004 lines 405-416), in source order: `-map [video]`,
`-map ${n}:a`, `-c:v libx264`, `-c:a aac`, `-b:v 2M`, `-b:a 192k`,
`-preset medium`, `-crf 23`, `-pix_fmt yuv420p`, `-movflags +faststart` —
and no `-shortest`. -/
def part004AssembleOutputOptions (n : ℕ) : List FfmpegOutOption :=
  [.mapStream "[video]", .mapAudioOfInput n, .codecVideo "libx264",
   .codecAudio "aac", .videoBitrate "2M", .audioBitrate "192k",
   .presetName "medium", .crf 23, .pixFmt "yuv420p", .movflags "+faststart"]

/-- Modelled from the spec: the duration of the muxed output produced by the
external encoder. With the stop-at-shortest output option the encode stops
at the shorter of the video and audio streams; without it both finite
streams are written out in full and the container runs to the longer one. -/
def muxDuration (opts : List FfmpegOutOption) (videoDur audioDur : ℚ) : ℚ :=
  if FfmpegOutOption.shortest ∈ opts then min videoDur audioDur
  else max videoDur audioDur

/-- Modelled from the spec: the frame produced by the external encoder's
`scale=w:h:force_original_aspect_ratio=decrease` stage — the source frame
shrunk (or grown) by the largest uniform factor that fits inside w×h. -/
def scaleFitDims (tw th sw sh : ℚ) : ℚ × ℚ :=
  let f := min (tw / sw) (th / sh)
  (sw * f, sh * f)

/-- Modelled from the spec: the output frame of one filter stage. A
scale-and-pad stage ends at exactly its target frame (the scaled content is
centred and the rest padded); a plain scale stretches to exactly the target
frame; concat keeps the frame. -/
def filterOutputDims : VideoFilter → ℚ × ℚ → ℚ × ℚ
  | .concatStreams _, d => d
  | .scaleFitPad w h, _ => ((w : ℚ), (h : ℚ))
  | .scaleExact w h, _ => ((w : ℚ), (h : ℚ))

/-- The frame at the end of a filter chain. -/
def chainOutputDims (fs : List VideoFilter) (d : ℚ × ℚ) : ℚ × ℚ :=
  fs.foldl (fun acc f => filterOutputDims f acc) d

/-- Does a filter stage scale to fit (preserving aspect ratio) and pad? -/
def isScaleFitPad : VideoFilter → Bool
  | .scaleFitPad _ _ => true
  | _ => false

/-- C4, counterexample. `-shortest` is not present in every assembly call:
the `VideoProducer.assembleVideo` variant of src/unnamed/part_004 (the
assembler the part_001 quota scheduler's `createVideo` uses) omits it, so
with a 10-second visual stream and a 20-second audio track its output runs
to the longer stream (20 s), not to min(10, 20) = 10 s. -/
theorem assembly_shortest_missing_in_part004 :
    FfmpegOutOption.shortest ∉ part004AssembleOutputOptions 5
    ∧ muxDuration (part004AssembleOutputOptions 5) 10 20 = 20
    ∧ min (10 : ℚ) 20 = 10
    ∧ (20 : ℚ) ≠ 10 := by
  refine ⟨by decide, ?_, ?_, by norm_num⟩
  · rw [muxDuration, if_neg (by decide)]
    exact max_eq_right (by norm_num)
  · exact min_eq_left (by norm_num)

/-- C4, amended. The `ContentEngine.assembleVideo` and
`videoProducer.assembleVideoWithFFmpeg` invocations always carry the
`-shortest` output option, so under the encoder's duration semantics their
output duration equals min(visual-stream duration, audio duration) and is
never padded beyond the shorter stream; the `VideoProducer.assembleVideo`
variant of src/unnamed/part_004, however, omits `-shortest` from its output
options, so its output is not truncated to the shorter stream. -/
theorem assembly_shortest_policy (n : ℕ) (v a : ℚ) :
    FfmpegOutOption.shortest ∈ contentEngineOutputOptions n
    ∧ FfmpegOutOption.shortest ∈ videoProducerOutputOptions n
    ∧ muxDuration (contentEngineOutputOptions n) v a = min v a
    ∧ muxDuration (videoProducerOutputOptions n) v a = min v a
    ∧ FfmpegOutOption.shortest ∉ part004AssembleOutputOptions n := by
  have h1 : FfmpegOutOption.shortest ∈ contentEngineOutputOptions n := by
    simp [contentEngineOutputOptions]
  have h2 : FfmpegOutOption.shortest ∈ videoProducerOutputOptions n := by
    simp [videoProducerOutputOptions]
  refine ⟨h1, h2, ?_, ?_, ?_⟩
  · rw [muxDuration, if_pos h1]
  · rw [muxDuration, if_pos h2]
  · simp [part004AssembleOutputOptions]

/-- C7, counterexample. Not every assembly scales to fit the canonical
1080×1920 frame with aspect preserved and padding: the
`VideoProducer.assembleVideo` variant of src/unnamed/part_004 has no
scale-and-pad stage at all — its chain is a plain stretch to the configured
resolution — and at resolution 1080p it stretches a 1000×1000 (1:1) source
to 1920×1080, changing the aspect ratio and ending at a frame that is not
the canonical 1080×1920. -/
theorem assembly_no_pad_in_part004 :
    (∀ f ∈ part004AssembleComplexFilter 5 .r1080p, isScaleFitPad f = false)
    ∧ chainOutputDims (part004AssembleComplexFilter 5 .r1080p) (1000, 1000) = (1920, 1080)
    ∧ (1920 : ℚ) * 1000 ≠ 1080 * 1000
    ∧ ((1920 : ℚ), (1080 : ℚ)) ≠ ((1080 : ℚ), (1920 : ℚ)) := by
  refine ⟨by decide, ?_, by norm_num, ?_⟩
  · rfl
  · intro h
    have := congrArg Prod.fst h
    norm_num at this

/-- C7, amended. The `ContentEngine.assembleVideo` and
`assembleVideoWithFFmpeg` chains concatenate the visuals and then scale to
fit the canonical 1080×1920 frame preserving the source aspect ratio,
padding the rest, so their output frame is exactly 1080×1920 for every
source aspect ratio; the `VideoProducer.assembleVideo` variant of
src/unnamed/part_004 instead stretches to its configured resolution with no
aspect preservation and no padding. -/
theorem assembly_scale_pad_policy (n : ℕ) (sw sh : ℚ) (hw : 0 < sw) (hh : 0 < sh) :
    contentEngineComplexFilter n = [.concatStreams n, .scaleFitPad 1080 1920]
    ∧ videoProducerComplexFilter n = [.concatStreams n, .scaleFitPad 1080 1920]
    ∧ (scaleFitDims 1080 1920 sw sh).1 * sh = (scaleFitDims 1080 1920 sw sh).2 * sw
    ∧ (scaleFitDims 1080 1920 sw sh).1 ≤ 1080
    ∧ (scaleFitDims 1080 1920 sw sh).2 ≤ 1920
    ∧ chainOutputDims (contentEngineComplexFilter n) (sw, sh) = (1080, 1920)
    ∧ (∀ f ∈ part004AssembleComplexFilter n .r1080p, isScaleFitPad f = false) := by
  refine ⟨rfl, rfl, ?_, ?_, ?_, rfl, ?_⟩
  · simp only [scaleFitDims]
    ring
  · simp only [scaleFitDims]
    have hf : min (1080 / sw) (1920 / sh) ≤ 1080 / sw := min_le_left _ _
    calc sw * min (1080 / sw) (1920 / sh) ≤ sw * (1080 / sw) :=
          mul_le_mul_of_nonneg_left hf (le_of_lt hw)
    _ = 1080 := by field_simp
  · simp only [scaleFitDims]
    have hf : min (1080 / sw) (1920 / sh) ≤ 1920 / sh := min_le_right _ _
    calc sh * min (1080 / sw) (1920 / sh) ≤ sh * (1920 / sh) :=
          mul_le_mul_of_nonneg_left hf (le_of_lt hh)
    _ = 1920 := by field_simp
  · intro f hf
    fin_cases hf <;> rfl

/-- C7, witness: a square 1000×1000 source is scaled preserving its 1:1
aspect ratio, fits inside the canonical frame, and the padded chain output
is exactly 1080×1920. -/
theorem assembly_scale_pad_policy_witness :
    (0 : ℚ) < 1000
    ∧ (scaleFitDims 1080 1920 1000 1000).1 * 1000 =
        (scaleFitDims 1080 1920 1000 1000).2 * 1000
    ∧ (scaleFitDims 1080 1920 1000 1000).1 ≤ 1080
    ∧ (scaleFitDims 1080 1920 1000 1000).2 ≤ 1920
    ∧ chainOutputDims (contentEngineComplexFilter 5) (1000, 1000) = (1080, 1920) := by
  have h := assembly_scale_pad_policy 5 1000 1000 (by norm_num) (by norm_num)
  exact ⟨by norm_num, h.2.2.1, h.2.2.2.1, h.2.2.2.2.1, h.2.2.2.2.2.1⟩

end ServerAI
